import Mathlib

/-!
Shallow embedding of the avr-kernel core (`src/kernel/core/kernel.c`) and
verification of the specification's claims about it.

Machine integers are modelled as `Nat` with explicit reduction modulo `2 ^ w`
where the C code can overflow (the `uint16_t` sleep-counter pre-decrement in
the tick ISR, and the `uint32_t` system-counter increment).  The kernel's
global variables form a `KernelState` record; each C function becomes a state
transformer.  Control transfers into the external assembly scheduler
(`kn_yield` / `kn_scheduler`) are out of the modelled state; functions that may
enter it return a `Bool` flag marking that path.
-/

namespace AvrKernel

/-- Compile-time configuration of the kernel.  `MAX_THREADS` comes from
`config.h` (spec: an integer in `[1, 8]`); `stack_base` models the per-slot
`THREADn_STACK_BASE` constants collected in the `kn_stack_base` table;
`kn_thread_bootstrap` is the (link-time) address of the bootstrap trampoline. -/
structure KernelConfig where
  MAX_THREADS : Nat
  stack_base : Nat → Nat
  kn_thread_bootstrap : Nat

/-- The kernel's global state variables, as declared in `kernel.c`:
`kn_cur_thread`, `kn_cur_thread_mask`, `kn_disabled_threads`,
`kn_suspended_threads`, `kn_sleeping_threads` (all `uint8_t`),
`kn_stack` (saved stack pointer per slot), `kn_sleep_counter`
(`uint16_t` per slot), `kn_system_counter` (`uint32_t`), plus the
byte-addressable RAM `mem` into which thread creation writes the
bootstrap frame. -/
@[ext] structure KernelState where
  kn_cur_thread : Nat
  kn_cur_thread_mask : Nat
  kn_disabled_threads : Nat
  kn_suspended_threads : Nat
  kn_sleeping_threads : Nat
  kn_stack : Nat → Nat
  kn_sleep_counter : Nat → Nat
  kn_system_counter : Nat
  mem : Nat → Nat

/-- The `kn_bitmasks` PROGMEM table from `kernel.c`:
`{0x01, 0x02, 0x04, 0x08, 0x10, 0x20, 0x40, 0x80}`. -/
def kn_bitmasks : List Nat := [0x01, 0x02, 0x04, 0x08, 0x10, 0x20, 0x40, 0x80]

/-- Modelled from the spec: `util.h` (not under `src/`) defines
`bit_to_mask(id)` as the constant-time table lookup of `kn_bitmasks[id]`,
"a bit at position equal to the thread ID" (spec §3). -/
def bit_to_mask (t_id : Nat) : Nat := kn_bitmasks.getD t_id 0

/-- Modelled from the spec: `INITIAL_STACK_USAGE` is defined in `kernel.h`
(not under `src/`).  Per spec §4.2 it is the size of the initial bootstrap
frame: the 18 callee-saved register bytes restored by the context switch plus
the 7 frame bytes (entry point 2, argument 2, thread id 1, bootstrap address
2) written at offsets 19–25 in `kn_create_thread_impl`, plus the byte below
the AVR stack pointer (which points at the next free byte). -/
def INITIAL_STACK_USAGE : Nat := 26

/-- Function `kn_sleep` (kernel.c:292-304): writes `millis` into the current slot's
sleep counter and ORs the slot's mask into `kn_sleeping_threads` (inside an
`ATOMIC_BLOCK`), then calls `kn_yield()` — the external-assembly context
switch, which mutates none of the fields written here. -/
def kn_sleep (millis : Nat) (s : KernelState) : KernelState :=
  { s with
      kn_sleep_counter := Function.update s.kn_sleep_counter s.kn_cur_thread millis,
      kn_sleeping_threads := s.kn_sleeping_threads ||| bit_to_mask s.kn_cur_thread }

/-- Function `kn_sleep_long` (kernel.c:306-325): the sequence of 16-bit chunk durations
it passes to `kn_sleep`, in order.  The C loop runs `while (millis)`: if
`millis > UINT16_MAX` it sleeps `UINT16_MAX` and subtracts it, otherwise it
sleeps the remainder and sets `millis` to 0. -/
def kn_sleep_long_chunks (millis : Nat) : List Nat :=
  if millis = 0 then []
  else if 65535 < millis then 65535 :: kn_sleep_long_chunks (millis - 65535)
  else [millis]
termination_by millis
decreasing_by omega

/-- Function `kn_millis` (kernel.c:327-335): an atomic snapshot of `kn_system_counter`. -/
def kn_millis (s : KernelState) : Nat := s.kn_system_counter

/-- Function `kn_thread_enabled` (kernel.c:337-341):
`(kn_disabled_threads & bit_to_mask(t_id)) == 0`. -/
def kn_thread_enabled (t_id : Nat) (s : KernelState) : Bool :=
  s.kn_disabled_threads &&& bit_to_mask t_id == 0

/-- Function `kn_thread_suspended` (kernel.c:343-349): disabled bit clear AND
suspended bit set. -/
def kn_thread_suspended (t_id : Nat) (s : KernelState) : Bool :=
  (s.kn_disabled_threads &&& bit_to_mask t_id == 0) &&
    (s.kn_suspended_threads &&& bit_to_mask t_id != 0)

/-- Function `kn_thread_sleeping` (kernel.c:351-357): disabled bit clear AND
sleeping bit set. -/
def kn_thread_sleeping (t_id : Nat) (s : KernelState) : Bool :=
  (s.kn_disabled_threads &&& bit_to_mask t_id == 0) &&
    (s.kn_sleeping_threads &&& bit_to_mask t_id != 0)

/-- Function `kn_disable` (kernel.c:359-367): ORs the slot's mask into
`kn_disabled_threads`.  The returned `Bool` is the `t_id == kn_cur_thread`
test: when true the C code enters `kn_scheduler()` (external assembly) and
does not return. -/
def kn_disable (t_id : Nat) (s : KernelState) : KernelState × Bool :=
  ({ s with kn_disabled_threads := s.kn_disabled_threads ||| bit_to_mask t_id },
   t_id == s.kn_cur_thread)

/-- Function `kn_resume` (kernel.c:369-373): clears the slot's bit in
`kn_suspended_threads` (`&= ~mask` on a `uint8_t` is `&&& (255 ^^^ mask)`).
Touches nothing else. -/
def kn_resume (t_id : Nat) (s : KernelState) : KernelState :=
  { s with
      kn_suspended_threads := s.kn_suspended_threads &&& (255 ^^^ bit_to_mask t_id) }

/-- Function `kn_suspend` (kernel.c:375-383): ORs the slot's mask into
`kn_suspended_threads`.  The returned `Bool` is the `t_id == kn_cur_thread`
test: when true the C code calls `kn_yield()`. -/
def kn_suspend (t_id : Nat) (s : KernelState) : KernelState × Bool :=
  ({ s with kn_suspended_threads := s.kn_suspended_threads ||| bit_to_mask t_id },
   t_id == s.kn_cur_thread)

/-- Function `kn_create_thread_impl` (kernel.c:198-237): sets the slot's saved stack
pointer to `kn_stack_base[t_id] - INITIAL_STACK_USAGE`, writes the bootstrap
frame bytes at offsets 25..19 from it (entry point low/high, arg low/high,
thread id, bootstrap address low/high; `>> 8` on a `uint16_t` value is
division by 256), clears the slot's `disabled` and `sleeping` bits, sets or
clears its `suspended` bit per the flag, and zeroes its sleep counter.  The
returned `Bool` is the final `t_id == kn_cur_thread` test: when true the C
code enters `kn_scheduler()` and does not return. -/
def kn_create_thread_impl (cfg : KernelConfig) (t_id entry_point : Nat)
    (suspended : Bool) (arg : Nat) (s : KernelState) : KernelState × Bool :=
  let sp := cfg.stack_base t_id - INITIAL_STACK_USAGE
  let mem1 := Function.update s.mem (sp + 25) (entry_point % 256)
  let mem2 := Function.update mem1 (sp + 24) (entry_point / 256 % 256)
  let mem3 := Function.update mem2 (sp + 23) (arg % 256)
  let mem4 := Function.update mem3 (sp + 22) (arg / 256 % 256)
  let mem5 := Function.update mem4 (sp + 21) (t_id % 256)
  let mem6 := Function.update mem5 (sp + 20) (cfg.kn_thread_bootstrap % 256)
  let mem7 := Function.update mem6 (sp + 19) (cfg.kn_thread_bootstrap / 256 % 256)
  ({ s with
      kn_stack := Function.update s.kn_stack t_id sp,
      mem := mem7,
      kn_disabled_threads := s.kn_disabled_threads &&& (255 ^^^ bit_to_mask t_id),
      kn_sleeping_threads := s.kn_sleeping_threads &&& (255 ^^^ bit_to_mask t_id),
      kn_suspended_threads :=
        if suspended then s.kn_suspended_threads ||| bit_to_mask t_id
        else s.kn_suspended_threads &&& (255 ^^^ bit_to_mask t_id),
      kn_sleep_counter := Function.update s.kn_sleep_counter t_id 0 },
   t_id == s.kn_cur_thread)

/-- Function `kn_init` (kernel.c:239-286): for each slot below `MAX_THREADS` resets the
saved stack pointer to the slot's base and zeroes its sleep counter; sets the
current thread to 0 with cached mask `0x01`; sets `kn_disabled_threads` to
`~0x01` on a `uint8_t` (all slots except 0); clears `kn_suspended_threads`
and `kn_sleeping_threads`; zeroes `kn_system_counter`.  The hardware side
(SP, TCCR0A/B, OCR0A, TIMSK0, SMCR) is memory-mapped I/O outside the modelled
state. -/
def kn_init (cfg : KernelConfig) (s : KernelState) : KernelState :=
  { s with
      kn_stack := fun i => if i < cfg.MAX_THREADS then cfg.stack_base i else s.kn_stack i,
      kn_sleep_counter := fun i => if i < cfg.MAX_THREADS then 0 else s.kn_sleep_counter i,
      kn_cur_thread := 0,
      kn_cur_thread_mask := 0x01,
      kn_disabled_threads := 255 ^^^ 0x01,
      kn_suspended_threads := 0x00,
      kn_sleeping_threads := 0x00,
      kn_system_counter := 0 }

/-- The sleep-accounting loop of `ISR(TIMER0_COMPA_vect)` (kernel.c:401-414),
operating on a local snapshot of `kn_sleeping_threads`.  While the snapshot is
nonzero and `t_id < MAX_THREADS`: if the snapshot has the walking-mask bit,
pre-decrement that slot's `uint16_t` sleep counter (`(c + 65535) % 65536`)
and, when the decremented value is 0, clear the bit in the snapshot.  Then
advance `t_id` and shift the `uint8_t` mask left. -/
def isr_loop (N : Nat) (sleeping t_id mask : Nat) (ctr : Nat → Nat) :
    Nat × (Nat → Nat) :=
  if h : sleeping ≠ 0 ∧ t_id < N then
    if sleeping &&& mask ≠ 0 then
      isr_loop N
        (if (ctr t_id + 65535) % 65536 = 0 then sleeping &&& (255 ^^^ mask) else sleeping)
        (t_id + 1) (mask * 2 % 256)
        (Function.update ctr t_id ((ctr t_id + 65535) % 65536))
    else
      isr_loop N sleeping (t_id + 1) (mask * 2 % 256) ctr
  else (sleeping, ctr)
termination_by N - t_id
decreasing_by all_goals omega

/-- Handler `ISR(TIMER0_COMPA_vect)` (kernel.c:390-417): increments the `uint32_t`
system counter, runs the sleep-accounting loop on a snapshot of
`kn_sleeping_threads` starting at `t_id = THREAD0`, `mask = 0x01`, and writes
the snapshot back. -/
def ISR_TIMER0_COMPA_vect (N : Nat) (s : KernelState) : KernelState :=
  { s with
      kn_system_counter := (s.kn_system_counter + 1) % 2 ^ 32,
      kn_sleeping_threads := (isr_loop N s.kn_sleeping_threads 0 0x01 s.kn_sleep_counter).1,
      kn_sleep_counter := (isr_loop N s.kn_sleeping_threads 0 0x01 s.kn_sleep_counter).2 }

/-- Modelled from the spec: the context-switch selection of the external
assembly scheduler (`kn_yield` / `kn_scheduler`, not under `src/`).  Spec
§4.3: "write the current stack pointer into the caller's saved-stack-pointer
slot ... On switching out, update current thread id and its cached mask.
These are the only globals touched by selection."  `next` is the selected
slot and `sp` the outgoing stack pointer value saved for the old slot. -/
def kn_schedule (next sp : Nat) (s : KernelState) : KernelState :=
  { s with
      kn_stack := Function.update s.kn_stack s.kn_cur_thread sp,
      kn_cur_thread := next,
      kn_cur_thread_mask := bit_to_mask next }

/-- One observable kernel event: a tick-ISR execution, a public API call, or
a context switch. -/
inductive KEvent where
  | tick : KEvent
  | sleep (ms : Nat) : KEvent
  | suspend (t : Nat) : KEvent
  | resume (t : Nat) : KEvent
  | disable (t : Nat) : KEvent
  | create (t entry arg : Nat) (susp : Bool) : KEvent
  | schedule (next sp : Nat) : KEvent
deriving DecidableEq

/-- State transition of one event.  For the calls whose C versions may enter
the scheduler, only the state component is kept (the `Bool` marks the control
transfer, which the event trace represents with explicit `schedule` events). -/
def applyEvent (cfg : KernelConfig) (e : KEvent) (s : KernelState) : KernelState :=
  match e with
  | .tick => ISR_TIMER0_COMPA_vect cfg.MAX_THREADS s
  | .sleep ms => kn_sleep ms s
  | .suspend t => (kn_suspend t s).1
  | .resume t => kn_resume t s
  | .disable t => (kn_disable t s).1
  | .create t entry arg susp => (kn_create_thread_impl cfg t entry susp arg s).1
  | .schedule next sp => kn_schedule next sp s

/-- Runs a list of events in order. -/
def knRun (cfg : KernelConfig) : List KEvent → KernelState → KernelState
  | [], s => s
  | e :: evs, s => knRun cfg evs (applyEvent cfg e s)

/-- Number of tick-ISR executions in an event list. -/
def countTicks : List KEvent → Nat
  | [] => 0
  | KEvent.tick :: evs => countTicks evs + 1
  | _ :: evs => countTicks evs

/-- Well-formedness of an event against the kernel's preconditions
(`kn_assert(t_id < MAX_THREADS)`, non-null entry point, `uint16_t` sleep
argument, scheduler selects a valid slot). -/
def eventOK (N : Nat) : KEvent → Bool
  | .tick => true
  | .sleep ms => decide (ms < 65536)
  | .suspend t => decide (t < N)
  | .resume t => decide (t < N)
  | .disable t => decide (t < N)
  | .create t entry _ _ => decide (t < N) && decide (entry ≠ 0)
  | .schedule next _ => decide (next < N)

/-- Every `sleep` event in the trace has a positive duration. -/
def sleepPos : KEvent → Bool
  | .sleep ms => decide (0 < ms)
  | _ => true

/-- Representation invariants tying the state to the C types: the current
thread id is a valid slot and the sleeping bitset fits in a `uint8_t`. -/
def KernelWF (N : Nat) (s : KernelState) : Prop :=
  s.kn_cur_thread < N ∧ s.kn_sleeping_threads < 256

/-- Spec invariant I3 for the slots: a slot marked sleeping has a nonzero
sleep counter (equivalently, a zero counter forces a clear sleeping bit). -/
def SleepInv (N : Nat) (s : KernelState) : Prop :=
  ∀ i, i < N → s.kn_sleeping_threads.testBit i = true → s.kn_sleep_counter i ≠ 0

/-! ### Statement-level predicates and concrete instances -/

/-- Postcondition of `isr_loop` started at slot `t_id` on snapshot `sleeping`
and counters `ctr`: the result never gains bits; bits below `t_id` or at or
above `N` are untouched, as are their counters; and every slot in
`[t_id, N)` whose snapshot bit is set has its counter pre-decremented
(mod `2 ^ 16`) with its bit surviving exactly when the decrement is nonzero,
while slots with a clear bit are untouched. -/
def ISRLoopPost (N t_id sleeping : Nat) (ctr : Nat → Nat)
    (r : Nat × (Nat → Nat)) : Prop :=
  r.1 ≤ sleeping ∧
  (∀ i, i < t_id ∨ N ≤ i → r.1.testBit i = sleeping.testBit i ∧ r.2 i = ctr i) ∧
  (∀ i, t_id ≤ i → i < N →
    (sleeping.testBit i = true →
      r.2 i = (ctr i + 65535) % 65536 ∧
      (r.1.testBit i = true ↔ (ctr i + 65535) % 65536 ≠ 0)) ∧
    (sleeping.testBit i = false → r.1.testBit i = false ∧ r.2 i = ctr i))

instance (N : Nat) (s : KernelState) : Decidable (KernelWF N s) := by
  unfold KernelWF
  infer_instance

instance (N : Nat) (s : KernelState) : Decidable (SleepInv N s) := by
  unfold SleepInv
  infer_instance

/-- Concrete configuration: 8 slots with distinct stack bases, all at least
`INITIAL_STACK_USAGE`. -/
def cfg0 : KernelConfig :=
  { MAX_THREADS := 8, stack_base := fun i => 0x500 - 0x80 * i,
    kn_thread_bootstrap := 0x1234 }

/-- Arbitrary pre-init state. -/
def blankState : KernelState :=
  { kn_cur_thread := 0, kn_cur_thread_mask := 1, kn_disabled_threads := 254,
    kn_suspended_threads := 0, kn_sleeping_threads := 0,
    kn_stack := fun _ => 0, kn_sleep_counter := fun _ => 0,
    kn_system_counter := 0, mem := fun _ => 0 }

/-- The kernel state as `kn_init` leaves it. -/
def initState : KernelState := kn_init cfg0 blankState

/-- A state with slots 0 and 1 sleeping (counters 1 and 2). -/
def sampleState : KernelState :=
  { blankState with
      kn_sleeping_threads := 3
      kn_sleep_counter := fun i => if i = 0 then 1 else 2 }

/-- A state one tick before the 32-bit system counter wraps. -/
def wrapState : KernelState :=
  { blankState with kn_system_counter := 4294967295 }

/-- Property asserted by C3 about the chunk sequence `kn_sleep_long` hands to
`kn_sleep`: the chunks sum exactly to the request, each chunk is a nonzero
16-bit value, and a zero request produces no calls. -/
def ChunkSpec (ms : Nat) : Prop :=
  (kn_sleep_long_chunks ms).sum = ms ∧
  (∀ c ∈ kn_sleep_long_chunks ms, 0 < c ∧ c ≤ 65535) ∧
  (ms = 0 → kn_sleep_long_chunks ms = [])

/-- Behavior asserted by C4 for one execution of the tick ISR: the 32-bit
system counter is incremented modulo `2 ^ 32`; every slot `i < MAX_THREADS`
whose sleeping bit was set has its counter pre-decremented modulo `2 ^ 16`
and keeps its bit exactly when the decremented counter is nonzero; slots with
a clear bit, and bit positions at or above `MAX_THREADS`, are untouched. -/
def ISRBehavior (N : Nat) (s : KernelState) : Prop :=
  (ISR_TIMER0_COMPA_vect N s).kn_system_counter = (s.kn_system_counter + 1) % 2 ^ 32 ∧
  (∀ i, i < N →
    (s.kn_sleeping_threads.testBit i = true →
      (ISR_TIMER0_COMPA_vect N s).kn_sleep_counter i
        = (s.kn_sleep_counter i + 65535) % 65536 ∧
      ((ISR_TIMER0_COMPA_vect N s).kn_sleeping_threads.testBit i = true ↔
        (s.kn_sleep_counter i + 65535) % 65536 ≠ 0)) ∧
    (s.kn_sleeping_threads.testBit i = false →
      (ISR_TIMER0_COMPA_vect N s).kn_sleep_counter i = s.kn_sleep_counter i ∧
      (ISR_TIMER0_COMPA_vect N s).kn_sleeping_threads.testBit i = false)) ∧
  (∀ i, N ≤ i →
    (ISR_TIMER0_COMPA_vect N s).kn_sleeping_threads.testBit i
      = s.kn_sleeping_threads.testBit i ∧
    (ISR_TIMER0_COMPA_vect N s).kn_sleep_counter i = s.kn_sleep_counter i)

/-- State of slot `t_id` asserted by C2 after `kn_create_thread_impl`:
disabled bit clear, sleeping bit clear, suspended bit equal to the flag,
sleep counter zero, and saved stack pointer equal to the slot's base minus
`INITIAL_STACK_USAGE`, which lies below the base. -/
def CreatePost (cfg : KernelConfig) (t_id : Nat) (susp : Bool) (r : KernelState) : Prop :=
  r.kn_disabled_threads.testBit t_id = false ∧
  r.kn_sleeping_threads.testBit t_id = false ∧
  r.kn_suspended_threads.testBit t_id = susp ∧
  r.kn_sleep_counter t_id = 0 ∧
  r.kn_stack t_id = cfg.stack_base t_id - INITIAL_STACK_USAGE ∧
  cfg.stack_base t_id - INITIAL_STACK_USAGE < cfg.stack_base t_id

/-- Outcome asserted by C6 for `kn_sleep(0)` on the current thread: the slot
is marked sleeping with counter 0; the next tick pre-decrements the counter,
wrapping modulo `2 ^ 16` to 65535 with the sleeping bit still set; the slot
stays marked sleeping through tick 65535 and is only cleared by the 65536th
tick. -/
def SleepZeroOutcome (N : Nat) (s : KernelState) : Prop :=
  (kn_sleep 0 s).kn_sleeping_threads.testBit s.kn_cur_thread = true ∧
  (kn_sleep 0 s).kn_sleep_counter s.kn_cur_thread = 0 ∧
  (ISR_TIMER0_COMPA_vect N (kn_sleep 0 s)).kn_sleep_counter s.kn_cur_thread = 65535 ∧
  (ISR_TIMER0_COMPA_vect N (kn_sleep 0 s)).kn_sleeping_threads.testBit
    s.kn_cur_thread = true ∧
  (∀ k, 1 ≤ k → k ≤ 65535 →
    ((ISR_TIMER0_COMPA_vect N)^[k] (kn_sleep 0 s)).kn_sleeping_threads.testBit
      s.kn_cur_thread = true) ∧
  ((ISR_TIMER0_COMPA_vect N)^[65536] (kn_sleep 0 s)).kn_sleeping_threads.testBit
    s.kn_cur_thread = false

/-- Characterization asserted by C8 of the three query predicates on a slot,
including that a set disabled bit forces all three to `false`. -/
def PredicateSpec (t_id : Nat) (s : KernelState) : Prop :=
  (kn_thread_enabled t_id s = true ↔ s.kn_disabled_threads.testBit t_id = false) ∧
  (kn_thread_suspended t_id s = true ↔
    (s.kn_disabled_threads.testBit t_id = false ∧
      s.kn_suspended_threads.testBit t_id = true)) ∧
  (kn_thread_sleeping t_id s = true ↔
    (s.kn_disabled_threads.testBit t_id = false ∧
      s.kn_sleeping_threads.testBit t_id = true)) ∧
  (s.kn_disabled_threads.testBit t_id = true →
    kn_thread_enabled t_id s = false ∧ kn_thread_suspended t_id s = false ∧
      kn_thread_sleeping t_id s = false)

/-- State asserted by C9 after `kn_init`: current thread 0 with cached mask
`0x01`; disabled bitset `0xFE` (every bit set except bit 0); suspended and
sleeping bitsets zero; each slot's sleep counter 0 and saved stack pointer at
its base; system counter 0. -/
def InitPost (cfg : KernelConfig) (r : KernelState) : Prop :=
  r.kn_cur_thread = 0 ∧
  r.kn_cur_thread_mask = 0x01 ∧
  r.kn_disabled_threads = 0xFE ∧
  (∀ i, i < 8 → (r.kn_disabled_threads.testBit i = true ↔ i ≠ 0)) ∧
  r.kn_suspended_threads = 0 ∧
  r.kn_sleeping_threads = 0 ∧
  (∀ i, i < cfg.MAX_THREADS →
    r.kn_sleep_counter i = 0 ∧ r.kn_stack i = cfg.stack_base i) ∧
  r.kn_system_counter = 0

/-! ### Bit-level helper lemmas -/

/-- The `kn_bitmasks` table realizes `2 ^ t_id` for valid thread ids. -/
theorem bit_to_mask_eq_pow (t : Nat) (ht : t < 8) : bit_to_mask t = 2 ^ t := by
  interval_cases t <;> rfl

theorem testBit_of_lt_256 {x j : Nat} (hx : x < 256) (hj : 8 ≤ j) :
    x.testBit j = false := by
  apply Nat.testBit_lt_two_pow
  calc x < 256 := hx
    _ = 2 ^ 8 := rfl
    _ ≤ 2 ^ j := Nat.pow_le_pow_right (by norm_num) hj

/-- Bits of the `uint8_t` complement `~(2 ^ t)`, written `255 ^^^ 2 ^ t`. -/
theorem testBit_compl_mask (t j : Nat) (ht : t < 8) :
    (255 ^^^ 2 ^ t).testBit j = (decide (j < 8) && !decide (t = j)) := by
  have h255 : (255 : Nat) = 2 ^ 8 - 1 := rfl
  rw [Nat.testBit_xor, h255, Nat.testBit_two_pow_sub_one, Nat.testBit_two_pow]
  by_cases htj : t = j
  · subst htj
    simp [ht]
  · by_cases hj : j < 8 <;> simp [hj, htj]

/-- Clearing bit `t` of a `uint8_t` value: the effect on each bit. -/
theorem and_compl_mask_testBit {x : Nat} (t j : Nat) (ht : t < 8) (hx : x < 256) :
    (x &&& (255 ^^^ 2 ^ t)).testBit j = (x.testBit j && !decide (t = j)) := by
  rw [Nat.testBit_and, testBit_compl_mask t j ht]
  by_cases hj : j < 8
  · simp [hj]
  · have hxf : x.testBit j = false := testBit_of_lt_256 hx (by omega)
    simp [hxf]

/-- Setting bit `t`: the effect on each bit. -/
theorem or_two_pow_testBit (x t j : Nat) :
    (x ||| 2 ^ t).testBit j = (x.testBit j || decide (t = j)) := by
  rw [Nat.testBit_or, Nat.testBit_two_pow]

/-- The C membership test `(x & mask) != 0` agrees with `testBit`. -/
theorem and_two_pow_ne_zero_iff (x t : Nat) :
    x &&& 2 ^ t ≠ 0 ↔ x.testBit t = true := by
  rw [Nat.and_two_pow]
  cases h : x.testBit t
  · simp
  · simp

/-! ### Characterization of the tick-ISR sleep-accounting loop -/

theorem isr_loop_spec (N : Nat) (hN : N ≤ 8) (fuel : Nat) :
    ∀ t_id sleeping ctr, N - t_id ≤ fuel → sleeping < 256 →
      ISRLoopPost N t_id sleeping ctr
        (isr_loop N sleeping t_id (2 ^ t_id % 256) ctr) := by
  induction fuel with
  | zero =>
    intro t_id sleeping ctr hfuel hs
    rw [isr_loop.eq_def, dif_neg (by omega : ¬(sleeping ≠ 0 ∧ t_id < N))]
    exact ⟨le_refl _, fun i _ => ⟨rfl, rfl⟩, fun i hi1 hi2 => absurd hi2 (by omega)⟩
  | succ fuel ih =>
    intro t_id sleeping ctr hfuel hs
    by_cases htN : t_id < N
    · by_cases hsz : sleeping = 0
      · subst hsz
        rw [isr_loop.eq_def, dif_neg (by simp)]
        refine ⟨le_refl _, fun i _ => ⟨rfl, rfl⟩, fun i hi1 hi2 =>
          ⟨fun hbit => ?_, fun _ => ⟨Nat.zero_testBit i, rfl⟩⟩⟩
        rw [Nat.zero_testBit] at hbit
        exact absurd hbit (by simp)
      · have ht8 : t_id < 8 := lt_of_lt_of_le htN hN
        have hmaskpow : (2 : Nat) ^ t_id < 256 := by
          calc (2 : Nat) ^ t_id ≤ 2 ^ 7 := Nat.pow_le_pow_right (by norm_num) (by omega)
            _ < 256 := by norm_num
        have hmask : 2 ^ t_id % 256 = 2 ^ t_id := Nat.mod_eq_of_lt hmaskpow
        have hmask2 : 2 ^ t_id * 2 % 256 = 2 ^ (t_id + 1) % 256 := by
          rw [pow_succ]
        rw [isr_loop.eq_def, dif_pos ⟨hsz, htN⟩, hmask, hmask2]
        by_cases hb : sleeping.testBit t_id = true
        · rw [if_pos ((and_two_pow_ne_zero_iff sleeping t_id).mpr hb)]
          by_cases hc : (ctr t_id + 65535) % 65536 = 0
          · rw [if_pos hc]
            have hs' : sleeping &&& (255 ^^^ 2 ^ t_id) < 256 :=
              lt_of_le_of_lt Nat.and_le_left hs
            obtain ⟨hle, hout, hin⟩ := ih (t_id + 1) (sleeping &&& (255 ^^^ 2 ^ t_id))
              (Function.update ctr t_id ((ctr t_id + 65535) % 65536)) (by omega) hs'
            refine ⟨le_trans hle Nat.and_le_left, ?_, ?_⟩
            · intro i hiout
              have h1 := (hout i (by omega)).1
              have h2 := (hout i (by omega)).2
              rw [and_compl_mask_testBit t_id i ht8 hs] at h1
              rw [Function.update_noteq (show i ≠ t_id by omega)] at h2
              exact ⟨by simpa [show t_id ≠ i by omega] using h1, h2⟩
            · intro i hi1 hi2
              rcases eq_or_lt_of_le hi1 with rfl | hgt
              · have hto := hout t_id (by omega)
                have hb1 := hto.1
                have hb2 := hto.2
                rw [and_compl_mask_testBit t_id t_id ht8 hs] at hb1
                simp at hb1
                rw [Function.update_same] at hb2
                refine ⟨fun _ => ⟨hb2, ?_⟩, fun hfalse => ?_⟩
                · rw [hb1]
                  simp [hc]
                · rw [hfalse] at hb
                  exact absurd hb (by simp)
              · have hi' := hin i (by omega) hi2
                have hsb : (sleeping &&& (255 ^^^ 2 ^ t_id)).testBit i
                    = sleeping.testBit i := by
                  rw [and_compl_mask_testBit t_id i ht8 hs]
                  simp [show t_id ≠ i by omega]
                have hcb : Function.update ctr t_id ((ctr t_id + 65535) % 65536) i
                    = ctr i := Function.update_noteq (by omega) _ _
                rw [hsb, hcb] at hi'
                exact hi'
          · rw [if_neg hc]
            obtain ⟨hle, hout, hin⟩ := ih (t_id + 1) sleeping
              (Function.update ctr t_id ((ctr t_id + 65535) % 65536)) (by omega) hs
            refine ⟨hle, ?_, ?_⟩
            · intro i hiout
              have h2 := (hout i (by omega)).2
              rw [Function.update_noteq (show i ≠ t_id by omega)] at h2
              exact ⟨(hout i (by omega)).1, h2⟩
            · intro i hi1 hi2
              rcases eq_or_lt_of_le hi1 with rfl | hgt
              · have hto := hout t_id (by omega)
                have hb2 := hto.2
                rw [Function.update_same] at hb2
                refine ⟨fun _ => ⟨hb2, ?_⟩, fun hfalse => ?_⟩
                · rw [hto.1, hb]
                  simp [hc]
                · rw [hfalse] at hb
                  exact absurd hb (by simp)
              · have hi' := hin i (by omega) hi2
                have hcb : Function.update ctr t_id ((ctr t_id + 65535) % 65536) i
                    = ctr i := Function.update_noteq (by omega) _ _
                rw [hcb] at hi'
                exact hi'
        · rw [Bool.not_eq_true] at hb
          rw [if_neg (by rw [and_two_pow_ne_zero_iff]; simp [hb])]
          obtain ⟨hle, hout, hin⟩ := ih (t_id + 1) sleeping ctr (by omega) hs
          refine ⟨hle, ?_, ?_⟩
          · intro i hiout
            exact hout i (by omega)
          · intro i hi1 hi2
            rcases eq_or_lt_of_le hi1 with rfl | hgt
            · refine ⟨fun htrue => ?_, fun _ => ?_⟩
              · rw [htrue] at hb
                exact absurd hb (by simp)
              · have hto := hout t_id (by omega)
                exact ⟨by rw [hto.1, hb], hto.2⟩
            · exact hin i (by omega) hi2
    · rw [isr_loop.eq_def, dif_neg (by omega : ¬(sleeping ≠ 0 ∧ t_id < N))]
      exact ⟨le_refl _, fun i _ => ⟨rfl, rfl⟩, fun i hi1 hi2 => absurd hi2 (by omega)⟩

/-- The loop postcondition instantiated the way the ISR invokes the loop. -/
theorem isr_post (N : Nat) (hN : N ≤ 8) (s : KernelState)
    (hs : s.kn_sleeping_threads < 256) :
    ISRLoopPost N 0 s.kn_sleeping_threads s.kn_sleep_counter
      (isr_loop N s.kn_sleeping_threads 0 0x01 s.kn_sleep_counter) :=
  isr_loop_spec N hN N 0 s.kn_sleeping_threads s.kn_sleep_counter (by omega) hs

theorem two_pow_lt_256 {t : Nat} (ht : t < 8) : (2 : Nat) ^ t < 256 := by
  calc (2 : Nat) ^ t ≤ 2 ^ 7 := Nat.pow_le_pow_right (by norm_num) (by omega)
    _ < 256 := by norm_num

theorem or_mask_lt_256 {x t : Nat} (hx : x < 256) (ht : t < 8) : x ||| 2 ^ t < 256 :=
  @Nat.or_lt_two_pow x (2 ^ t) 8 hx (two_pow_lt_256 ht)

/-! ### Preservation of the representation invariants and of I3 -/

theorem applyEvent_wf (cfg : KernelConfig) (hN : cfg.MAX_THREADS ≤ 8) (e : KEvent)
    (s : KernelState) (hok : eventOK cfg.MAX_THREADS e = true)
    (hwf : KernelWF cfg.MAX_THREADS s) : KernelWF cfg.MAX_THREADS (applyEvent cfg e s) := by
  obtain ⟨hcur, hsl⟩ := hwf
  cases e with
  | tick => exact ⟨hcur, lt_of_le_of_lt (isr_post cfg.MAX_THREADS hN s hsl).1 hsl⟩
  | sleep ms =>
    refine ⟨hcur, ?_⟩
    show s.kn_sleeping_threads ||| bit_to_mask s.kn_cur_thread < 256
    rw [bit_to_mask_eq_pow _ (by omega)]
    exact or_mask_lt_256 hsl (by omega)
  | suspend t => exact ⟨hcur, hsl⟩
  | resume t => exact ⟨hcur, hsl⟩
  | disable t => exact ⟨hcur, hsl⟩
  | create t entry arg susp => exact ⟨hcur, lt_of_le_of_lt Nat.and_le_left hsl⟩
  | schedule next sp => exact ⟨of_decide_eq_true hok, hsl⟩

/-- The tick ISR re-establishes invariant I3 on the slots unconditionally:
a slot left marked sleeping has a nonzero counter. -/
theorem isr_sleepInv (N : Nat) (hN : N ≤ 8) (s : KernelState)
    (hs : s.kn_sleeping_threads < 256) : SleepInv N (ISR_TIMER0_COMPA_vect N s) := by
  intro i hi hbit
  obtain ⟨hle, hout, hin⟩ := isr_post N hN s hs
  have hbit' : (isr_loop N s.kn_sleeping_threads 0 0x01 s.kn_sleep_counter).1.testBit i
      = true := hbit
  show (isr_loop N s.kn_sleeping_threads 0 0x01 s.kn_sleep_counter).2 i ≠ 0
  have hi' := hin i (Nat.zero_le i) hi
  by_cases hb : s.kn_sleeping_threads.testBit i = true
  · obtain ⟨hc1, hc2⟩ := hi'.1 hb
    rw [hc1]
    exact hc2.mp hbit'
  · rw [Bool.not_eq_true] at hb
    rw [(hi'.2 hb).1] at hbit'
    exact absurd hbit' (by simp)

/-- Calling `kn_sleep` with a positive duration preserves I3. -/
theorem kn_sleep_sleepInv (N : Nat) (hN : N ≤ 8) (ms : Nat) (hms : 0 < ms)
    (s : KernelState) (hcur : s.kn_cur_thread < N) (hinv : SleepInv N s) :
    SleepInv N (kn_sleep ms s) := by
  intro i hi hbit
  have hc8 : s.kn_cur_thread < 8 := by omega
  have hbit' : (s.kn_sleeping_threads ||| 2 ^ s.kn_cur_thread).testBit i = true := by
    have h := hbit
    rw [show (kn_sleep ms s).kn_sleeping_threads
        = s.kn_sleeping_threads ||| bit_to_mask s.kn_cur_thread from rfl,
      bit_to_mask_eq_pow _ hc8] at h
    exact h
  rw [or_two_pow_testBit] at hbit'
  show Function.update s.kn_sleep_counter s.kn_cur_thread ms i ≠ 0
  by_cases hic : i = s.kn_cur_thread
  · subst hic
    rw [Function.update_same]
    omega
  · rw [Function.update_noteq hic]
    apply hinv i hi
    simpa [show s.kn_cur_thread ≠ i from fun h => hic h.symm] using hbit'

/-- Function `kn_create_thread_impl` preserves I3 (it clears the slot's sleeping bit
and zeroes its counter). -/
theorem kn_create_sleepInv (cfg : KernelConfig) (hN : cfg.MAX_THREADS ≤ 8)
    (t entry arg : Nat) (susp : Bool) (ht : t < cfg.MAX_THREADS) (s : KernelState)
    (hsl : s.kn_sleeping_threads < 256) (hinv : SleepInv cfg.MAX_THREADS s) :
    SleepInv cfg.MAX_THREADS (kn_create_thread_impl cfg t entry susp arg s).1 := by
  intro i hi hbit
  have ht8 : t < 8 := by omega
  have hbit' : (s.kn_sleeping_threads &&& (255 ^^^ 2 ^ t)).testBit i = true := by
    have h := hbit
    rw [show ((kn_create_thread_impl cfg t entry susp arg s).1).kn_sleeping_threads
        = s.kn_sleeping_threads &&& (255 ^^^ bit_to_mask t) from rfl,
      bit_to_mask_eq_pow _ ht8] at h
    exact h
  rw [and_compl_mask_testBit t i ht8 hsl] at hbit'
  show Function.update s.kn_sleep_counter t 0 i ≠ 0
  by_cases hit : i = t
  · subst hit
    simp at hbit'
  · rw [Function.update_noteq hit]
    apply hinv i hi
    simpa [show t ≠ i from fun h => hit h.symm] using hbit'

theorem applyEvent_sleepInv (cfg : KernelConfig) (hN : cfg.MAX_THREADS ≤ 8) (e : KEvent)
    (s : KernelState) (hok : eventOK cfg.MAX_THREADS e = true)
    (hpos : sleepPos e = true) (hwf : KernelWF cfg.MAX_THREADS s)
    (hinv : SleepInv cfg.MAX_THREADS s) :
    SleepInv cfg.MAX_THREADS (applyEvent cfg e s) := by
  obtain ⟨hcur, hsl⟩ := hwf
  cases e with
  | tick => exact isr_sleepInv cfg.MAX_THREADS hN s hsl
  | sleep ms =>
    exact kn_sleep_sleepInv cfg.MAX_THREADS hN ms (of_decide_eq_true hpos) s hcur hinv
  | suspend t => exact hinv
  | resume t => exact hinv
  | disable t => exact hinv
  | create t entry arg susp =>
    simp only [eventOK, Bool.and_eq_true, decide_eq_true_eq] at hok
    exact kn_create_sleepInv cfg hN t entry arg susp hok.1 s hsl hinv
  | schedule next sp => exact hinv

/-- Running a well-formed trace whose sleeps are all positive preserves the
representation invariants and I3. -/
theorem knRun_preserves (cfg : KernelConfig) (hN : cfg.MAX_THREADS ≤ 8) :
    ∀ (evs : List KEvent) (s : KernelState),
      evs.all (fun e => eventOK cfg.MAX_THREADS e && sleepPos e) = true →
      KernelWF cfg.MAX_THREADS s → SleepInv cfg.MAX_THREADS s →
      KernelWF cfg.MAX_THREADS (knRun cfg evs s) ∧
        SleepInv cfg.MAX_THREADS (knRun cfg evs s)
  | [], _, _, hwf, hinv => ⟨hwf, hinv⟩
  | e :: evs, s, hall, hwf, hinv => by
    rw [List.all_cons, Bool.and_eq_true] at hall
    obtain ⟨he, hall⟩ := hall
    rw [Bool.and_eq_true] at he
    exact knRun_preserves cfg hN evs (applyEvent cfg e s) hall
      (applyEvent_wf cfg hN e s he.1 hwf)
      (applyEvent_sleepInv cfg hN e s he.1 he.2 hwf hinv)

/-- Exact value of the system counter after a trace, absent wraparound: the
ISR is its only writer and each tick adds one. -/
theorem knRun_counter (cfg : KernelConfig) :
    ∀ (evs : List KEvent) (s : KernelState),
      s.kn_system_counter + countTicks evs < 2 ^ 32 →
      (knRun cfg evs s).kn_system_counter = s.kn_system_counter + countTicks evs := by
  intro evs
  induction evs with
  | nil => intro s _; rfl
  | cons e evs ih =>
    intro s h
    cases e with
    | tick =>
      have hct : countTicks (KEvent.tick :: evs) = countTicks evs + 1 := rfl
      have hstep : (applyEvent cfg KEvent.tick s).kn_system_counter
          = s.kn_system_counter + 1 := by
        show (s.kn_system_counter + 1) % 2 ^ 32 = s.kn_system_counter + 1
        apply Nat.mod_eq_of_lt
        omega
      have hrest := ih (applyEvent cfg KEvent.tick s) (by rw [hstep]; omega)
      rw [show knRun cfg (KEvent.tick :: evs) s
          = knRun cfg evs (applyEvent cfg KEvent.tick s) from rfl, hrest, hstep, hct]
      omega
    | sleep ms => exact ih _ h
    | suspend t => exact ih _ h
    | resume t => exact ih _ h
    | disable t => exact ih _ h
    | create t entry arg susp => exact ih _ h
    | schedule next sp => exact ih _ h

/-! ### Concrete configuration and states used as witnesses -/

/-! ### Chunking of kn_sleep_long -/

theorem kn_sleep_long_chunks_sum (ms : Nat) : (kn_sleep_long_chunks ms).sum = ms := by
  rw [kn_sleep_long_chunks.eq_def]
  by_cases h0 : ms = 0
  · rw [if_pos h0]
    simp [h0]
  · rw [if_neg h0]
    by_cases hbig : 65535 < ms
    · rw [if_pos hbig, List.sum_cons, kn_sleep_long_chunks_sum (ms - 65535)]
      omega
    · rw [if_neg hbig]
      simp
termination_by ms
decreasing_by omega

theorem kn_sleep_long_chunks_mem (ms : Nat) :
    ∀ c ∈ kn_sleep_long_chunks ms, 0 < c ∧ c ≤ 65535 := by
  rw [kn_sleep_long_chunks.eq_def]
  by_cases h0 : ms = 0
  · rw [if_pos h0]
    intro c hc
    simp at hc
  · rw [if_neg h0]
    by_cases hbig : 65535 < ms
    · rw [if_pos hbig]
      intro c hc
      rcases List.mem_cons.mp hc with rfl | hc'
      · omega
      · exact kn_sleep_long_chunks_mem (ms - 65535) c hc'
    · rw [if_neg hbig]
      intro c hc
      rcases List.mem_cons.mp hc with rfl | hc'
      · omega
      · simp at hc'
termination_by ms
decreasing_by omega

/-! ### Iterated ticks on a sleeping slot -/

/-- While a slot's counter is at least the number of elapsed ticks, each tick
decrements it by one and the sleeping bit survives exactly while the counter
is still positive. -/
theorem isr_iterate_countdown (N : Nat) (hN : N ≤ 8) (i : Nat) (hi : i < N) :
    ∀ (k : Nat) (u : KernelState), u.kn_sleeping_threads < 256 →
      u.kn_sleeping_threads.testBit i = true →
      0 < u.kn_sleep_counter i → k ≤ u.kn_sleep_counter i →
      u.kn_sleep_counter i ≤ 65535 →
      ((ISR_TIMER0_COMPA_vect N)^[k] u).kn_sleeping_threads < 256 ∧
      ((ISR_TIMER0_COMPA_vect N)^[k] u).kn_sleep_counter i
        = u.kn_sleep_counter i - k ∧
      ((ISR_TIMER0_COMPA_vect N)^[k] u).kn_sleeping_threads.testBit i
        = decide (0 < u.kn_sleep_counter i - k) := by
  intro k
  induction k with
  | zero =>
    intro u h256 hbit hpos hk hle
    refine ⟨h256, rfl, ?_⟩
    show u.kn_sleeping_threads.testBit i = decide (0 < u.kn_sleep_counter i - 0)
    rw [hbit]
    exact (decide_eq_true (by omega)).symm
  | succ k ih =>
    intro u h256 hbit hpos hk hle
    obtain ⟨hle', hout, hin⟩ := isr_post N hN u h256
    obtain ⟨hc1, hc2⟩ := (hin i (Nat.zero_le i) hi).1 hbit
    have hc1 : (ISR_TIMER0_COMPA_vect N u).kn_sleep_counter i
        = (u.kn_sleep_counter i + 65535) % 65536 := hc1
    have hc2 : (ISR_TIMER0_COMPA_vect N u).kn_sleeping_threads.testBit i = true ↔
        (u.kn_sleep_counter i + 65535) % 65536 ≠ 0 := hc2
    have hdec : (u.kn_sleep_counter i + 65535) % 65536 = u.kn_sleep_counter i - 1 := by
      omega
    have h256' : (ISR_TIMER0_COMPA_vect N u).kn_sleeping_threads < 256 :=
      lt_of_le_of_lt hle' h256
    rw [Function.iterate_succ_apply]
    by_cases hz : u.kn_sleep_counter i - 1 = 0
    · have hk0 : k = 0 := by omega
      subst hk0
      refine ⟨h256', ?_, ?_⟩
      · show (ISR_TIMER0_COMPA_vect N u).kn_sleep_counter i
            = u.kn_sleep_counter i - (0 + 1)
        rw [hc1, hdec]
      · show (ISR_TIMER0_COMPA_vect N u).kn_sleeping_threads.testBit i
            = decide (0 < u.kn_sleep_counter i - (0 + 1))
        have hbf : ¬((ISR_TIMER0_COMPA_vect N u).kn_sleeping_threads.testBit i = true) :=
          fun h => (hc2.mp h) (by rw [hdec]; exact hz)
        rw [Bool.not_eq_true] at hbf
        rw [hbf]
        exact (decide_eq_false (by omega)).symm
    · have hbit' : (ISR_TIMER0_COMPA_vect N u).kn_sleeping_threads.testBit i = true :=
        hc2.mpr (by rw [hdec]; exact hz)
      obtain ⟨r1, r2, r3⟩ := ih (ISR_TIMER0_COMPA_vect N u) h256' hbit'
        (by rw [hc1, hdec]; omega) (by rw [hc1, hdec]; omega) (by rw [hc1, hdec]; omega)
      refine ⟨r1, ?_, ?_⟩
      · rw [r2, hc1, hdec]
        omega
      · have harith : (ISR_TIMER0_COMPA_vect N u).kn_sleep_counter i - k
            = u.kn_sleep_counter i - (k + 1) := by
          rw [hc1, hdec]
          omega
        rw [r3, harith]

/-! ### Claims -/

/-- C1 counterexample: after `kn_sleep(0)` from the freshly initialized
kernel, slot 0 (the current thread) is marked sleeping while its sleep
counter is 0, so invariant I3 does not hold after `kn_sleep(ms)` with
`ms == 0` as the claim states. -/
theorem C1_counterexample :
    ¬ SleepInv 8 (knRun cfg0 [KEvent.sleep 0] initState) := by
  decide

/-- C1 (amended): for every slot `i < MAX_THREADS`, the invariant
"`sleeping` bit set implies sleep counter nonzero (equivalently, counter zero
implies bit clear)" holds after every tick ISR and is preserved by every
well-formed sequence of public API calls, ISR executions and context
switches in which every `kn_sleep` duration is positive.  The original
claim's `ms == 0` case is excluded: `kn_sleep(0)` marks the slot sleeping
with counter 0 (see `C1_counterexample`). -/
theorem C1_sleep_invariant (cfg : KernelConfig) (hN : cfg.MAX_THREADS ≤ 8)
    (evs : List KEvent) (s : KernelState)
    (hok : evs.all (fun e => eventOK cfg.MAX_THREADS e && sleepPos e) = true)
    (hwf : KernelWF cfg.MAX_THREADS s) (hinv : SleepInv cfg.MAX_THREADS s) :
    SleepInv cfg.MAX_THREADS (knRun cfg evs s) :=
  (knRun_preserves cfg hN evs s hok hwf hinv).2

theorem C1_sleep_invariant_witness :
    (cfg0.MAX_THREADS ≤ 8 ∧
      ([KEvent.sleep 5, KEvent.tick, KEvent.schedule 1 0x47f,
        KEvent.tick].all (fun e => eventOK cfg0.MAX_THREADS e && sleepPos e) = true) ∧
      KernelWF cfg0.MAX_THREADS initState ∧ SleepInv cfg0.MAX_THREADS initState) ∧
    SleepInv cfg0.MAX_THREADS
      (knRun cfg0 [KEvent.sleep 5, KEvent.tick, KEvent.schedule 1 0x47f,
        KEvent.tick] initState) :=
  ⟨⟨by decide, by decide, by decide, by decide⟩,
   C1_sleep_invariant cfg0 (by decide) _ initState (by decide) (by decide) (by decide)⟩

/-- C3: for every 32-bit `ms32`, `kn_sleep_long(ms32)` invokes `kn_sleep`
finitely many times with 16-bit chunk durations summing to exactly `ms32`;
every chunk is nonzero and at most 65535, and `ms32 == 0` produces zero
invocations. -/
theorem C3_sleep_long_chunking (ms : Nat) (_hms : ms < 2 ^ 32) : ChunkSpec ms :=
  ⟨kn_sleep_long_chunks_sum ms, kn_sleep_long_chunks_mem ms, fun h0 => by
    rw [kn_sleep_long_chunks.eq_def, if_pos h0]⟩

theorem C3_sleep_long_chunking_witness :
    (70000 : Nat) < 2 ^ 32 ∧ ChunkSpec 70000 :=
  ⟨by decide, C3_sleep_long_chunking 70000 (by decide)⟩

/-- C4: each tick-ISR execution increments the 32-bit system counter by one,
scans slots from 0 while the snapshot is nonzero and the id is below
`MAX_THREADS`, decrements the sleep counter of every slot whose snapshot bit
is set, clears that slot's snapshot bit exactly when the decremented counter
equals zero, and writes the snapshot back. -/
theorem C4_isr_tick (N : Nat) (hN : N ≤ 8) (s : KernelState)
    (hs : s.kn_sleeping_threads < 256) : ISRBehavior N s := by
  obtain ⟨hle, hout, hin⟩ := isr_post N hN s hs
  refine ⟨rfl, ?_, ?_⟩
  · intro i hi
    obtain ⟨h1, h2⟩ := hin i (Nat.zero_le i) hi
    exact ⟨h1, fun hf => ⟨(h2 hf).2, (h2 hf).1⟩⟩
  · intro i hi
    exact hout i (Or.inr hi)

theorem C4_isr_tick_witness :
    (8 ≤ 8 ∧ sampleState.kn_sleeping_threads < 256) ∧ ISRBehavior 8 sampleState :=
  ⟨⟨by decide, by decide⟩, C4_isr_tick 8 (by decide) sampleState (by decide)⟩

/-- C5: the tick ISR leaves the disabled bitset, the suspended bitset, the
current thread id, the cached current-thread mask, every saved stack pointer
and all of RAM unchanged — it mutates only the system counter, the sleeping
bitset, and the per-slot sleep counters. -/
theorem C5_isr_frame (N : Nat) (s : KernelState) :
    (ISR_TIMER0_COMPA_vect N s).kn_disabled_threads = s.kn_disabled_threads ∧
    (ISR_TIMER0_COMPA_vect N s).kn_suspended_threads = s.kn_suspended_threads ∧
    (ISR_TIMER0_COMPA_vect N s).kn_cur_thread = s.kn_cur_thread ∧
    (ISR_TIMER0_COMPA_vect N s).kn_cur_thread_mask = s.kn_cur_thread_mask ∧
    (ISR_TIMER0_COMPA_vect N s).kn_stack = s.kn_stack ∧
    (ISR_TIMER0_COMPA_vect N s).mem = s.mem :=
  ⟨rfl, rfl, rfl, rfl, rfl, rfl⟩

/-- C2: for every valid `t_id` other than the current thread and non-null
entry point, `kn_create_thread_impl(t_id, entry, suspended, arg)` returns
(the scheduler path is not taken) and leaves slot `t_id` with disabled and
sleeping bits clear, suspended bit equal to the flag, sleep counter 0, and
`kn_stack[t_id] = base − INITIAL_STACK_USAGE ∈ [base − INITIAL_STACK_USAGE,
base)`. -/
theorem C2_create_thread (cfg : KernelConfig) (hN : cfg.MAX_THREADS ≤ 8)
    (t_id entry arg : Nat) (susp : Bool) (s : KernelState)
    (ht : t_id < cfg.MAX_THREADS) (hne : t_id ≠ s.kn_cur_thread)
    (_hentry : entry ≠ 0) (hbase : INITIAL_STACK_USAGE ≤ cfg.stack_base t_id) :
    CreatePost cfg t_id susp (kn_create_thread_impl cfg t_id entry susp arg s).1 ∧
    (kn_create_thread_impl cfg t_id entry susp arg s).2 = false := by
  have ht8 : t_id < 8 := by omega
  have hmask := bit_to_mask_eq_pow t_id ht8
  constructor
  · refine ⟨?_, ?_, ?_, ?_, ?_, ?_⟩
    · show (s.kn_disabled_threads &&& (255 ^^^ bit_to_mask t_id)).testBit t_id = false
      rw [hmask, Nat.testBit_and, testBit_compl_mask t_id t_id ht8]
      simp
    · show (s.kn_sleeping_threads &&& (255 ^^^ bit_to_mask t_id)).testBit t_id = false
      rw [hmask, Nat.testBit_and, testBit_compl_mask t_id t_id ht8]
      simp
    · show (if susp then s.kn_suspended_threads ||| bit_to_mask t_id
          else s.kn_suspended_threads &&& (255 ^^^ bit_to_mask t_id)).testBit t_id = susp
      cases susp with
      | false =>
        rw [if_neg (by simp)]
        rw [hmask, Nat.testBit_and, testBit_compl_mask t_id t_id ht8]
        simp
      | true =>
        rw [if_pos rfl]
        rw [hmask, or_two_pow_testBit]
        simp
    · show Function.update s.kn_sleep_counter t_id 0 t_id = 0
      exact Function.update_same _ _ _
    · show Function.update s.kn_stack t_id
          (cfg.stack_base t_id - INITIAL_STACK_USAGE) t_id
        = cfg.stack_base t_id - INITIAL_STACK_USAGE
      exact Function.update_same _ _ _
    · have h26 : INITIAL_STACK_USAGE = 26 := rfl
      omega
  · show (t_id == s.kn_cur_thread) = false
    simp [hne]

theorem C2_create_thread_witness :
    (cfg0.MAX_THREADS ≤ 8 ∧ (1 : Nat) < cfg0.MAX_THREADS ∧
      (1 : Nat) ≠ initState.kn_cur_thread ∧ (0x300 : Nat) ≠ 0 ∧
      INITIAL_STACK_USAGE ≤ cfg0.stack_base 1) ∧
    (CreatePost cfg0 1 false (kn_create_thread_impl cfg0 1 0x300 false 0 initState).1 ∧
      (kn_create_thread_impl cfg0 1 0x300 false 0 initState).2 = false) :=
  ⟨⟨by decide, by decide, by decide, by decide, by decide⟩,
   C2_create_thread cfg0 (by decide) 1 0x300 0 false initState (by decide) (by decide)
     (by decide) (by decide)⟩

/-- C6: if the tick ISR runs on a slot whose sleeping bit is set with counter
0, the pre-decrement wraps modulo `2 ^ 16` to 65535 and the bit stays set; a
thread calling `kn_sleep(0)` is marked sleeping with counter 0 and stays
marked sleeping for 65535 further ticks, becoming clear only at tick 65536,
instead of waking at the next scheduling point. -/
theorem C6_sleep_zero (N : Nat) (hN : N ≤ 8) (s : KernelState)
    (hcur : s.kn_cur_thread < N) (hs : s.kn_sleeping_threads < 256) :
    SleepZeroOutcome N s := by
  have hc8 : s.kn_cur_thread < 8 := by omega
  have hbit : (kn_sleep 0 s).kn_sleeping_threads.testBit s.kn_cur_thread = true := by
    show (s.kn_sleeping_threads ||| bit_to_mask s.kn_cur_thread).testBit
      s.kn_cur_thread = true
    rw [bit_to_mask_eq_pow _ hc8, or_two_pow_testBit]
    simp
  have hctr0 : (kn_sleep 0 s).kn_sleep_counter s.kn_cur_thread = 0 := by
    show Function.update s.kn_sleep_counter s.kn_cur_thread 0 s.kn_cur_thread = 0
    exact Function.update_same _ _ _
  have h256 : (kn_sleep 0 s).kn_sleeping_threads < 256 := by
    show s.kn_sleeping_threads ||| bit_to_mask s.kn_cur_thread < 256
    rw [bit_to_mask_eq_pow _ hc8]
    exact or_mask_lt_256 hs hc8
  obtain ⟨hle1, hout1, hin1⟩ := isr_post N hN (kn_sleep 0 s) h256
  obtain ⟨hc1, hc2⟩ := (hin1 s.kn_cur_thread (Nat.zero_le _) hcur).1 hbit
  have hc1 : (ISR_TIMER0_COMPA_vect N (kn_sleep 0 s)).kn_sleep_counter s.kn_cur_thread
      = ((kn_sleep 0 s).kn_sleep_counter s.kn_cur_thread + 65535) % 65536 := hc1
  have hc2 : (ISR_TIMER0_COMPA_vect N (kn_sleep 0 s)).kn_sleeping_threads.testBit
      s.kn_cur_thread = true ↔
      ((kn_sleep 0 s).kn_sleep_counter s.kn_cur_thread + 65535) % 65536 ≠ 0 := hc2
  have hwrap : ((kn_sleep 0 s).kn_sleep_counter s.kn_cur_thread + 65535) % 65536
      = 65535 := by
    rw [hctr0]
  have h1 : (ISR_TIMER0_COMPA_vect N (kn_sleep 0 s)).kn_sleep_counter s.kn_cur_thread
      = 65535 := hc1.trans hwrap
  have h1bit : (ISR_TIMER0_COMPA_vect N (kn_sleep 0 s)).kn_sleeping_threads.testBit
      s.kn_cur_thread = true := hc2.mpr (by rw [hwrap]; omega)
  have h256' : (ISR_TIMER0_COMPA_vect N (kn_sleep 0 s)).kn_sleeping_threads < 256 :=
    lt_of_le_of_lt hle1 h256
  refine ⟨hbit, hctr0, h1, h1bit, ?_, ?_⟩
  · intro k hk1 hk2
    obtain ⟨j, rfl⟩ : ∃ j, k = j + 1 := ⟨k - 1, by omega⟩
    rw [Function.iterate_succ_apply]
    obtain ⟨_, _, r3⟩ := isr_iterate_countdown N hN s.kn_cur_thread hcur j
      (ISR_TIMER0_COMPA_vect N (kn_sleep 0 s)) h256' h1bit
      (by rw [h1]; omega) (by rw [h1]; omega) (by rw [h1])
    rw [r3, h1]
    exact decide_eq_true (by omega)
  · rw [show (65536 : Nat) = 65535 + 1 from rfl, Function.iterate_succ_apply]
    obtain ⟨_, _, r3⟩ := isr_iterate_countdown N hN s.kn_cur_thread hcur 65535
      (ISR_TIMER0_COMPA_vect N (kn_sleep 0 s)) h256' h1bit
      (by rw [h1]; omega) (by rw [h1]) (by rw [h1])
    rw [r3, h1]
    exact decide_eq_false (by omega)

theorem C6_sleep_zero_witness :
    (8 ≤ 8 ∧ initState.kn_cur_thread < 8 ∧ initState.kn_sleeping_threads < 256) ∧
    SleepZeroOutcome 8 initState :=
  ⟨⟨by decide, by decide, by decide⟩,
   C6_sleep_zero 8 (by decide) initState (by decide) (by decide)⟩

/-- C7: for a valid slot other than the current thread, `kn_suspend` and
`kn_disable` are idempotent, `kn_resume` on a slot whose suspended bit is
already clear is a no-op on the whole kernel state, and `kn_resume` never
modifies the disabled bitset. -/
theorem C7_idempotence (N : Nat) (hN : N ≤ 8) (t_id : Nat) (ht : t_id < N)
    (s : KernelState) (_hne : t_id ≠ s.kn_cur_thread)
    (hsusp : s.kn_suspended_threads < 256) :
    (kn_suspend t_id (kn_suspend t_id s).1).1 = (kn_suspend t_id s).1 ∧
    (kn_disable t_id (kn_disable t_id s).1).1 = (kn_disable t_id s).1 ∧
    (s.kn_suspended_threads.testBit t_id = false → kn_resume t_id s = s) ∧
    (kn_resume t_id s).kn_disabled_threads = s.kn_disabled_threads := by
  have ht8 : t_id < 8 := by omega
  refine ⟨?_, ?_, ?_, rfl⟩
  · have hor : s.kn_suspended_threads ||| bit_to_mask t_id ||| bit_to_mask t_id
        = s.kn_suspended_threads ||| bit_to_mask t_id := by
      rw [Nat.or_assoc, Nat.or_self]
    show ({ s with kn_suspended_threads :=
        s.kn_suspended_threads ||| bit_to_mask t_id ||| bit_to_mask t_id } : KernelState)
      = { s with kn_suspended_threads := s.kn_suspended_threads ||| bit_to_mask t_id }
    rw [hor]
  · have hor : s.kn_disabled_threads ||| bit_to_mask t_id ||| bit_to_mask t_id
        = s.kn_disabled_threads ||| bit_to_mask t_id := by
      rw [Nat.or_assoc, Nat.or_self]
    show ({ s with kn_disabled_threads :=
        s.kn_disabled_threads ||| bit_to_mask t_id ||| bit_to_mask t_id } : KernelState)
      = { s with kn_disabled_threads := s.kn_disabled_threads ||| bit_to_mask t_id }
    rw [hor]
  · intro hfalse
    have hnoop : s.kn_suspended_threads &&& (255 ^^^ bit_to_mask t_id)
        = s.kn_suspended_threads := by
      rw [bit_to_mask_eq_pow _ ht8]
      apply Nat.eq_of_testBit_eq
      intro j
      rw [and_compl_mask_testBit t_id j ht8 hsusp]
      by_cases hjt : t_id = j
      · subst hjt
        rw [hfalse]
        simp
      · simp [hjt]
    show ({ s with kn_suspended_threads :=
        s.kn_suspended_threads &&& (255 ^^^ bit_to_mask t_id) } : KernelState) = s
    rw [hnoop]

theorem C7_idempotence_witness :
    (8 ≤ 8 ∧ (1 : Nat) < 8 ∧ (1 : Nat) ≠ initState.kn_cur_thread ∧
      initState.kn_suspended_threads < 256) ∧
    ((kn_suspend 1 (kn_suspend 1 initState).1).1 = (kn_suspend 1 initState).1 ∧
     (kn_disable 1 (kn_disable 1 initState).1).1 = (kn_disable 1 initState).1 ∧
     (initState.kn_suspended_threads.testBit 1 = false →
       kn_resume 1 initState = initState) ∧
     (kn_resume 1 initState).kn_disabled_threads = initState.kn_disabled_threads) :=
  ⟨⟨by decide, by decide, by decide, by decide⟩,
   C7_idempotence 8 (by decide) 1 (by decide) initState (by decide) (by decide)⟩

/-- C8: `kn_thread_enabled` is true iff the disabled bit is clear;
`kn_thread_suspended` iff disabled clear and suspended set;
`kn_thread_sleeping` iff disabled clear and sleeping set; on a disabled slot
all three return false regardless of the other bits. -/
theorem C8_predicates (N : Nat) (hN : N ≤ 8) (t_id : Nat) (ht : t_id < N)
    (s : KernelState) : PredicateSpec t_id s := by
  have ht8 : t_id < 8 := by omega
  have hmask := bit_to_mask_eq_pow t_id ht8
  have hand0 : ∀ x : Nat, (x &&& 2 ^ t_id = 0) ↔ x.testBit t_id = false := by
    intro x
    rw [← Bool.not_eq_true, ← and_two_pow_ne_zero_iff x t_id]
    exact not_not.symm
  have h1 : kn_thread_enabled t_id s = true ↔
      s.kn_disabled_threads.testBit t_id = false := by
    show (s.kn_disabled_threads &&& bit_to_mask t_id == 0) = true ↔ _
    rw [hmask, beq_iff_eq]
    exact hand0 _
  have h2 : kn_thread_suspended t_id s = true ↔
      (s.kn_disabled_threads.testBit t_id = false ∧
        s.kn_suspended_threads.testBit t_id = true) := by
    show ((s.kn_disabled_threads &&& bit_to_mask t_id == 0) &&
        (s.kn_suspended_threads &&& bit_to_mask t_id != 0)) = true ↔ _
    rw [Bool.and_eq_true, hmask, beq_iff_eq, bne_iff_ne]
    exact and_congr (hand0 _) (and_two_pow_ne_zero_iff _ _)
  have h3 : kn_thread_sleeping t_id s = true ↔
      (s.kn_disabled_threads.testBit t_id = false ∧
        s.kn_sleeping_threads.testBit t_id = true) := by
    show ((s.kn_disabled_threads &&& bit_to_mask t_id == 0) &&
        (s.kn_sleeping_threads &&& bit_to_mask t_id != 0)) = true ↔ _
    rw [Bool.and_eq_true, hmask, beq_iff_eq, bne_iff_ne]
    exact and_congr (hand0 _) (and_two_pow_ne_zero_iff _ _)
  refine ⟨h1, h2, h3, ?_⟩
  intro hdis
  refine ⟨?_, ?_, ?_⟩
  · cases hh : kn_thread_enabled t_id s
    · rfl
    · rw [h1.mp hh] at hdis
      exact absurd hdis (by simp)
  · cases hh : kn_thread_suspended t_id s
    · rfl
    · rw [(h2.mp hh).1] at hdis
      exact absurd hdis (by simp)
  · cases hh : kn_thread_sleeping t_id s
    · rfl
    · rw [(h3.mp hh).1] at hdis
      exact absurd hdis (by simp)

theorem C8_predicates_witness :
    (8 ≤ 8 ∧ (2 : Nat) < 8) ∧ PredicateSpec 2 sampleState :=
  ⟨⟨by decide, by decide⟩, C8_predicates 8 (by decide) 2 (by decide) sampleState⟩

/-- C9: after `kn_init` the current thread id is 0 with cached mask `0x01`;
the disabled bitset has every bit set except bit 0; the suspended and
sleeping bitsets are zero; each slot's sleep counter is 0 and its saved
stack pointer equals the slot's stack base; the system counter is 0. -/
theorem C9_init (cfg : KernelConfig) (s : KernelState) :
    InitPost cfg (kn_init cfg s) := by
  refine ⟨rfl, rfl, rfl, ?_, rfl, rfl, ?_, rfl⟩
  · show ∀ i, i < 8 → (((255 : Nat) ^^^ 0x01).testBit i = true ↔ i ≠ 0)
    decide
  intro i hi
  constructor
  · show (if i < cfg.MAX_THREADS then 0 else s.kn_sleep_counter i) = 0
    rw [if_pos hi]
  · show (if i < cfg.MAX_THREADS then cfg.stack_base i else s.kn_stack i)
      = cfg.stack_base i
    rw [if_pos hi]

/-- C10 counterexample: with the system counter at `2 ^ 32 − 1`, a single
tick wraps it to 0, so a later `kn_millis` observation is strictly below an
earlier one — the counter is not monotonic across every observation pair. -/
theorem C10_counterexample :
    kn_millis (knRun cfg0 [KEvent.tick] wrapState) < kn_millis wrapState := by
  decide

/-- C10 (amended): across any trace of kernel events, the system counter is
advanced only by the ISR's increment, so a later `kn_millis` observation is
at least an earlier one provided the 32-bit counter does not wrap (fewer
ticks than `2 ^ 32 − initial` elapse between the observations).  Without
that proviso the original claim fails (see `C10_counterexample`). -/
theorem C10_millis_monotone (cfg : KernelConfig) (evs : List KEvent)
    (s : KernelState) (h : s.kn_system_counter + countTicks evs < 2 ^ 32) :
    kn_millis s ≤ kn_millis (knRun cfg evs s) := by
  rw [show kn_millis (knRun cfg evs s) = (knRun cfg evs s).kn_system_counter from rfl,
    knRun_counter cfg evs s h]
  show s.kn_system_counter ≤ s.kn_system_counter + countTicks evs
  omega

theorem C10_millis_monotone_witness :
    initState.kn_system_counter
        + countTicks [KEvent.tick, KEvent.sleep 3, KEvent.tick] < 2 ^ 32 ∧
    kn_millis initState
      ≤ kn_millis (knRun cfg0 [KEvent.tick, KEvent.sleep 3, KEvent.tick] initState) :=
  ⟨by decide,
   C10_millis_monotone cfg0 [KEvent.tick, KEvent.sleep 3, KEvent.tick] initState
     (by decide)⟩

end AvrKernel
